import Mathlib

/-
Verification of certigo's TLS classification/formatting module (lib/tls.go).

The module classifies a negotiated TLS session (protocol-version identifier
and cipher-suite identifier, both 16-bit numbers) into `description` records
and renders them either as a structured object or as a colorized text block.

Shallow embedding notes:
* Go strings are byte slices; every string this module handles is ASCII, so
  Lean `String` / `List Char` is a faithful model.
* Go `map[uint16]description` literals are modelled as association lists with
  pairwise-distinct keys; Go map lookup is `List.lookup`.
* A Go runtime panic (index out of range in `explainCipher`, and hence in
  `EncodeTLSToText`) is modelled as `Option.none`.
* `strings.Split(s, sep)` (for the non-empty separator used here) is modelled
  by `stringsSplit`, built from a fuel-indexed structural recursion so that it
  evaluates inside the kernel.
-/

namespace Certigo

/-- First occurrence of `sep` in `s`: returns the part before the occurrence
and the part after it, or `none` when `sep` does not occur in `s`.
This is the leftmost-match search performed by Go's `strings.Index`. -/
def findSep (sep : List Char) : List Char → Option (List Char × List Char)
  | [] => none
  | c :: rest =>
    if sep.isPrefixOf (c :: rest) then
      some ([], (c :: rest).drop sep.length)
    else
      match findSep sep rest with
      | none => none
      | some (pre, post) => some (c :: pre, post)

/-- Fuel-indexed worker for `splitSep`; fuel `s.length` always suffices for a
non-empty separator because each found occurrence consumes at least one
character. -/
def splitF (sep : List Char) : Nat → List Char → List (List Char)
  | 0, s => [s]
  | fuel + 1, s =>
    match findSep sep s with
    | none => [s]
    | some (pre, post) => pre :: splitF sep fuel post

/-- Split `s` around every occurrence of `sep` (leftmost, non-overlapping).
For non-empty `sep` this is exactly Go's `strings.Split`; the module only ever
splits on the non-empty separators `"_WITH_"` (in `explainCipher`) and, in
statements about output lines, `"\n"`. -/
def splitSep (sep s : List Char) : List (List Char) :=
  splitF sep s.length s

/-- Go `strings.Split(s, sep)` on Lean strings (see `splitSep`). -/
def stringsSplit (s sep : String) : List String :=
  (splitSep sep.toList s.toList).map String.mk

/-- `true` iff `pat` occurs somewhere in `s` (Go `strings.Contains`);
used only to state properties of the registry slugs. -/
def containsStr (s pat : String) : Bool :=
  (findSep pat.toList s.toList).isSome

/-- `true` iff `s` starts with `pat`; used only to state properties of the
registry slugs. -/
def hasPre (s pat : String) : Bool :=
  pat.toList.isPrefixOf s.toList

/-- Go `fmt.Sprintf("%x", n)`: minimal-width lowercase hexadecimal. -/
def hexStr (n : Nat) : String :=
  String.mk (Nat.toDigits 16 n)

/-- The three quality tiers, Go `const ( insecure = iota; ok; good )`.
`Quality` is a Go `uint8`; we model it as `Nat` (all registry values are
0, 1 or 2, and no arithmetic is ever performed on it). -/
def insecure : Nat := 0

/-- Tier ACCEPTABLE, Go constant `ok = 1`. -/
def ok : Nat := 1

/-- Tier GOOD, Go constant `good = 2`. -/
def good : Nat := 2

/-- Go `type description struct { Name, Slug string; Quality uint8 }`. -/
structure description where
  Name : String
  Slug : String
  Quality : Nat
deriving DecidableEq, Repr

/-- Modelled from the spec: the color values `red`, `yellow`, `green` that
`qualityColors` refers to are defined elsewhere in the repository (outside
the file under analysis). The spec describes them as ANSI display-color
treatments wrapped around the description's name, so a color is modelled as
an ANSI SGR code and `Color.sprint` as the wrap it applies. -/
structure Color where
  code : Nat
deriving DecidableEq, Repr

/-- The color treatment: wrap `s` in the ANSI escape for this color. -/
def Color.sprint (c : Color) (s : String) : String :=
  "\x1b[" ++ toString c.code ++ "m" ++ s ++ "\x1b[0m"

/-- Modelled from the spec: foreground red (ANSI SGR 31). -/
def red : Color := ⟨31⟩

/-- Modelled from the spec: foreground yellow (ANSI SGR 33). -/
def yellow : Color := ⟨33⟩

/-- Modelled from the spec: foreground green (ANSI SGR 32). -/
def green : Color := ⟨32⟩

/-- Go `var qualityColors = map[uint8]*color.Color{...}`. -/
def qualityColors : List (Nat × Color) :=
  [(insecure, red), (ok, yellow), (good, green)]

/-- Go `func tlscolor(d description) string`: color the name by quality,
falling back to the plain name when the quality is not in the table. -/
def tlscolor (d : description) : String :=
  match List.lookup d.Quality qualityColors with
  | some c => c.sprint d.Name
  | none => d.Name

/-- Go `func lookup(descriptions map[uint16]description, what uint16)`:
a map lookup with a synthesized `UNKNOWN_<hex>` default of quality 0. -/
def lookup (descriptions : List (Nat × description)) (what : Nat) : description :=
  match List.lookup what descriptions with
  | some v => v
  | none =>
    let unknown := "UNKNOWN_" ++ hexStr what
    ⟨unknown, unknown, 0⟩

/-- Go `var tlsVersions = map[uint16]description{...}`; keys are the
`crypto/tls` version constants (SSL30 = 0x0300, …, TLS12 = 0x0303). -/
def tlsVersions : List (Nat × description) :=
  [ (0x0300, ⟨"SSL 3.0", "ssl_3_0", insecure⟩),
    (0x0301, ⟨"TLS 1.0", "tls_1_0", insecure⟩),
    (0x0302, ⟨"TLS 1.1", "tls_1_1", ok⟩),
    (0x0303, ⟨"TLS 1.2", "tls_1_2", good⟩) ]

/-- Go `var cipherSuites = map[uint16]description{...}`; keys are the
`crypto/tls` cipher-suite constants, in source order. -/
def cipherSuites : List (Nat × description) :=
  [ (0x0005, ⟨"", "TLS_RSA_WITH_RC4_128_SHA", insecure⟩),
    (0x000a, ⟨"", "TLS_RSA_WITH_3DES_EDE_CBC_SHA", insecure⟩),
    (0x002f, ⟨"", "TLS_RSA_WITH_AES_128_CBC_SHA", ok⟩),
    (0x0035, ⟨"", "TLS_RSA_WITH_AES_256_CBC_SHA", ok⟩),
    (0x003c, ⟨"", "TLS_RSA_WITH_AES_128_CBC_SHA256", ok⟩),
    (0x009c, ⟨"", "TLS_RSA_WITH_AES_128_GCM_SHA256", ok⟩),
    (0x009d, ⟨"", "TLS_RSA_WITH_AES_256_GCM_SHA384", ok⟩),
    (0xc007, ⟨"", "TLS_ECDHE_ECDSA_WITH_RC4_128_SHA", insecure⟩),
    (0xc009, ⟨"", "TLS_ECDHE_ECDSA_WITH_AES_128_CBC_SHA", ok⟩),
    (0xc00a, ⟨"", "TLS_ECDHE_ECDSA_WITH_AES_256_CBC_SHA", ok⟩),
    (0xc011, ⟨"", "TLS_ECDHE_RSA_WITH_RC4_128_SHA", insecure⟩),
    (0xc012, ⟨"", "TLS_ECDHE_RSA_WITH_3DES_EDE_CBC_SHA", insecure⟩),
    (0xc013, ⟨"", "TLS_ECDHE_RSA_WITH_AES_128_CBC_SHA", ok⟩),
    (0xc014, ⟨"", "TLS_ECDHE_RSA_WITH_AES_256_CBC_SHA", ok⟩),
    (0xc023, ⟨"", "TLS_ECDHE_ECDSA_WITH_AES_128_CBC_SHA256", ok⟩),
    (0xc027, ⟨"", "TLS_ECDHE_RSA_WITH_AES_128_CBC_SHA256", ok⟩),
    (0xc02f, ⟨"", "TLS_ECDHE_RSA_WITH_AES_128_GCM_SHA256", good⟩),
    (0xc02b, ⟨"", "TLS_ECDHE_ECDSA_WITH_AES_128_GCM_SHA256", good⟩),
    (0xc030, ⟨"", "TLS_ECDHE_RSA_WITH_AES_256_GCM_SHA384", good⟩),
    (0xc02c, ⟨"", "TLS_ECDHE_ECDSA_WITH_AES_256_GCM_SHA384", good⟩),
    (0xcca8, ⟨"", "TLS_ECDHE_RSA_WITH_CHACHA20_POLY1305", good⟩),
    (0xcca9, ⟨"", "TLS_ECDHE_ECDSA_WITH_CHACHA20_POLY1305", good⟩) ]

/-- Go `func explainCipher(d description) description`:
`kexAndCipher := strings.Split(d.Slug, "_WITH_")`, then
`d.Name = fmt.Sprintf("%s key exchange, %s cipher", kexAndCipher[0][4:], kexAndCipher[1])`.
The two index operations panic when the split yields fewer than two parts or
the first part is shorter than `len("TLS_") = 4`; a panic is modelled as
`none`. -/
def explainCipher (d : description) : Option description :=
  match stringsSplit d.Slug "_WITH_" with
  | kex :: cph :: _ =>
    if 4 ≤ kex.length then
      some { d with
        Name := String.mk (kex.toList.drop 4) ++ " key exchange, " ++ cph ++ " cipher" }
    else none
  | _ => none

/-- Go `type TLSDescription struct { Version, Cipher string }`. -/
structure TLSDescription where
  Version : String
  Cipher : String
deriving DecidableEq, Repr

/-- The constant template `tlsLayout` applied to a `TLSDescription` by
`text/template`. The template is a compile-time constant, so parsing
succeeds and `Execute` is plain substitution of the two fields into
`** TLS Connection **` / `Version: …` / `Cipher Suite: …`. -/
def renderTLSLayout (d : TLSDescription) : String :=
  "** TLS Connection **\nVersion: " ++ d.Version ++ "\nCipher Suite: " ++ d.Cipher

/-- Go `func EncodeTLSToText(tcs *tls.ConnectionState) string`, as a function
of the two identifiers it reads from the connection state. The call
`explainCipher(cipher)` panics for some inputs, so the result is an
`Option String` (`none` = panic). -/
def EncodeTLSToText (version cipher : Nat) : Option String :=
  let v := lookup tlsVersions version
  let c := lookup cipherSuites cipher
  match explainCipher c with
  | none => none
  | some ec => some (renderTLSLayout { Version := tlscolor v, Cipher := tlscolor ec })

/-- Go `func EncodeTLSToObject(t *tls.ConnectionState) interface{}`, as a
function of the two identifiers: the record of the two slugs. -/
def EncodeTLSToObject (version cipher : Nat) : TLSDescription :=
  { Version := (lookup tlsVersions version).Slug,
    Cipher := (lookup cipherSuites cipher).Slug }

/-- The lines of a rendered text block (split on newline). -/
def linesOf (s : String) : List String :=
  stringsSplit s "\n"

/-- `true` iff `explainCipher` succeeds on `d` (no out-of-range access) and
the resulting name is non-empty; used to state the registry well-formedness
consequence. -/
def explainsWithName (d : description) : Bool :=
  match explainCipher d with
  | some e => e.Name != ""
  | none => false

end Certigo

/-! ## Helper lemmas about the split machinery -/

namespace Certigo

/-- A list is a prefix of itself followed by anything. -/
theorem isPrefixOf_append_self (p t : List Char) : p.isPrefixOf (p ++ t) = true := by
  simp

/-- A boolean prefix test certifies the decomposition of the larger list. -/
theorem eq_append_of_isPrefixOf {p l : List Char} (h : p.isPrefixOf l = true) :
    l = p ++ l.drop p.length := by
  simp at h
  obtain ⟨t, rfl⟩ := h
  rw [List.drop_left]

/-- A successful `findSep` decomposes the searched list. -/
theorem findSep_struct {sep : List Char} :
    ∀ {s pre post : List Char}, findSep sep s = some (pre, post) → s = pre ++ (sep ++ post) := by
  intro s
  induction s with
  | nil => intro pre post h; simp [findSep] at h
  | cons c rest ih =>
    intro pre post h
    rw [findSep] at h
    by_cases hp : sep.isPrefixOf (c :: rest) = true
    · rw [if_pos hp] at h
      injection h with h'
      injection h' with h1 h2
      subst h1; subst h2
      simpa using eq_append_of_isPrefixOf hp
    · rw [if_neg hp] at h
      cases hm : findSep sep rest with
      | none => rw [hm] at h; exact absurd h (by simp)
      | some pq =>
        obtain ⟨p', q'⟩ := pq
        rw [hm] at h
        injection h with h'
        injection h' with h1 h2
        subst h1; subst h2
        simpa [List.cons_append] using congrArg (List.cons c) (ih hm)

/-- When `sep` occurs at position `a.length` of `a ++ sep ++ b` and at no
earlier position, `findSep` finds exactly that occurrence. -/
theorem findSep_append_first {sep : List Char} (hsep : sep ≠ []) :
    ∀ (a b : List Char),
      (∀ i, i < a.length → sep.isPrefixOf ((a ++ (sep ++ b)).drop i) = false) →
      findSep sep (a ++ (sep ++ b)) = some (a, b) := by
  intro a
  induction a with
  | nil =>
    intro b _
    cases sep with
    | nil => exact absurd rfl hsep
    | cons c cs =>
      show findSep (c :: cs) (c :: (cs ++ b)) = some ([], b)
      rw [findSep.eq_def]
      simp only []
      rw [if_pos (by simp)]
      simp [List.drop_left']
  | cons c a' ih =>
    intro b H
    have h0 : sep.isPrefixOf (c :: (a' ++ (sep ++ b))) = false := by
      simpa using H 0 (by simp)
    show findSep sep (c :: (a' ++ (sep ++ b))) = some (c :: a', b)
    rw [findSep.eq_def]
    simp only []
    rw [if_neg (by simp [h0])]
    have H' : ∀ i, i < a'.length → sep.isPrefixOf ((a' ++ (sep ++ b)).drop i) = false := by
      intro i hi
      simpa [List.drop_succ_cons] using H (i + 1) (by simpa using Nat.succ_lt_succ hi)
    rw [ih b H']

/-- For a non-empty separator, any fuel of at least `s.length` gives the same
split result. -/
theorem splitF_mono {sep : List Char} (hsep : sep ≠ []) :
    ∀ f₁ f₂ s, s.length ≤ f₁ → s.length ≤ f₂ → splitF sep f₁ s = splitF sep f₂ s := by
  intro f₁
  induction f₁ with
  | zero =>
    intro f₂ s h₁ _
    have hs : s = [] := List.length_eq_zero.mp (Nat.le_zero.mp h₁)
    subst hs
    cases f₂ with
    | zero => rfl
    | succ f₂ => simp [splitF, findSep]
  | succ f₁ ih =>
    intro f₂ s h₁ h₂
    cases f₂ with
    | zero =>
      have hs : s = [] := List.length_eq_zero.mp (Nat.le_zero.mp h₂)
      subst hs
      simp [splitF, findSep]
    | succ f₂ =>
      rw [splitF, splitF]
      cases hm : findSep sep s with
      | none => rfl
      | some pq =>
        obtain ⟨pre, post⟩ := pq
        have hst := findSep_struct hm
        have hsl : 1 ≤ sep.length := by
          cases sep with
          | nil => exact absurd rfl hsep
          | cons x xs => simp
        have hlen : post.length + 1 ≤ s.length := by
          simp [hst]; omega
        exact congrArg (pre :: ·) (ih f₂ post (by omega) (by omega))

/-- Unfolding rule of `splitSep` at a found occurrence. -/
theorem splitSep_cons {sep s pre post : List Char} (hsep : sep ≠ [])
    (h : findSep sep s = some (pre, post)) :
    splitSep sep s = pre :: splitSep sep post := by
  have hst := findSep_struct h
  have hsl : 1 ≤ sep.length := by
    cases sep with
    | nil => exact absurd rfl hsep
    | cons x xs => simp
  have hlen : post.length + 1 ≤ s.length := by simp [hst]; omega
  unfold splitSep
  cases hl : s.length with
  | zero => omega
  | succ n =>
    rw [splitF, h]
    exact congrArg (pre :: ·) (splitF_mono hsep n post.length post (by omega) (by omega))

/-- Unfolding rule of `splitSep` when the separator does not occur. -/
theorem splitSep_single {sep s : List Char} (h : findSep sep s = none) :
    splitSep sep s = [s] := by
  unfold splitSep
  cases s.length with
  | zero => rfl
  | succ n => rw [splitF, h]

/-- `toList` distributes over string concatenation. -/
theorem strToList_append (s t : String) : (s ++ t).toList = s.toList ++ t.toList := by
  cases s; cases t; rfl

/-- `String.mk` undoes `toList`. -/
theorem strMk_toList (s : String) : String.mk s.toList = s := rfl

/-- Length of a packed character list. -/
theorem strLength_mk (l : List Char) : (String.mk l).length = l.length := rfl

end Certigo

/-! ## Claim theorems -/

namespace Certigo

/-- C1: the claim states that `EncodeTLSToText` succeeds and returns a
renderable string for every pair of 16-bit identifiers, with unknown
identifiers degrading gracefully via the synthesized placeholder. The code
violates this: for a cipher-suite identifier absent from the registry,
`lookup` synthesizes the slug `UNKNOWN_<hex>`, which contains no `_WITH_`
separator, so `explainCipher` evaluates `kexAndCipher[1]` on a one-element
slice and panics with an index-out-of-range error inside `EncodeTLSToText`.
This theorem evaluates the code at the failing input: version `0x0303`
(TLS 1.2, known) and cipher `0x1234` (absent from `cipherSuites`). -/
theorem c1_encodeTLSToText_panics_on_unknown_cipher :
    EncodeTLSToText 0x0303 0x1234 = none ∧
    explainCipher (lookup cipherSuites 0x1234) = none := by
  constructor <;> decide

/-- C2 counterexample: the claim says every GCM AEAD suite in the registry has
quality GOOD, but the registered suite `TLS_RSA_WITH_AES_128_GCM_SHA256`
(identifier 0x009c) is a GCM suite whose registered quality is `ok`
(ACCEPTABLE), not `good`. -/
theorem c2_rsa_gcm_counterexample :
    (0x009c, description.mk "" "TLS_RSA_WITH_AES_128_GCM_SHA256" ok) ∈ cipherSuites ∧
    containsStr "TLS_RSA_WITH_AES_128_GCM_SHA256" "_GCM_" = true ∧
    ok ≠ good := by
  refine ⟨by decide, by decide, by decide⟩

/-- C2 (amended): in the cipher-suite registry, every suite using RC4 or 3DES
has quality INSECURE; every CBC-mode suite with RSA or ECDHE key exchange and
not using 3DES has quality ACCEPTABLE; every GCM or ChaCha20-Poly1305 AEAD
suite with ECDHE key exchange has quality GOOD, while the GCM suites with
static RSA key exchange have quality ACCEPTABLE. -/
theorem c2_cipherSuites_quality_amended : ∀ p ∈ cipherSuites,
    ((containsStr p.2.Slug "RC4" = true ∨ containsStr p.2.Slug "3DES" = true) →
      p.2.Quality = insecure) ∧
    (containsStr p.2.Slug "_CBC" = true ∧ containsStr p.2.Slug "3DES" = false ∧
      (hasPre p.2.Slug "TLS_RSA_" = true ∨ hasPre p.2.Slug "TLS_ECDHE_" = true) →
      p.2.Quality = ok) ∧
    ((containsStr p.2.Slug "_GCM_" = true ∨ containsStr p.2.Slug "CHACHA20_POLY1305" = true) ∧
      hasPre p.2.Slug "TLS_ECDHE_" = true → p.2.Quality = good) ∧
    (containsStr p.2.Slug "_GCM_" = true ∧ hasPre p.2.Slug "TLS_RSA_" = true →
      p.2.Quality = ok) := by
  decide

/-- C2 witness: the amended classification applied to the concrete registry
entry `TLS_RSA_WITH_RC4_128_SHA` (0x0005), an RC4 suite of quality INSECURE. -/
theorem c2_quality_witness :
    (0x0005, description.mk "" "TLS_RSA_WITH_RC4_128_SHA" insecure) ∈ cipherSuites ∧
    containsStr "TLS_RSA_WITH_RC4_128_SHA" "RC4" = true ∧
    (description.mk "" "TLS_RSA_WITH_RC4_128_SHA" insecure).Quality = insecure :=
  ⟨by decide, by decide,
    (c2_cipherSuites_quality_amended
      (0x0005, description.mk "" "TLS_RSA_WITH_RC4_128_SHA" insecure)
      (by decide)).1 (Or.inl (by decide))⟩

/-- C3: for every identifier absent from a registry, `lookup` returns a
Description whose name and slug are both `UNKNOWN_` followed by the
minimal-width lowercase hexadecimal rendering of the identifier (Go
`fmt.Sprintf("%x", what)`), with quality `insecure = 0`, the lowest tier. -/
theorem c3_lookup_absent_synthesizes_unknown :
    ∀ (reg : List (Nat × description)) (what : Nat),
      List.lookup what reg = none →
      lookup reg what =
        ⟨"UNKNOWN_" ++ hexStr what, "UNKNOWN_" ++ hexStr what, insecure⟩ := by
  intro reg what h
  unfold lookup
  rw [h]
  rfl

/-- C3 witness: identifier 0x0304 (TLS 1.3, absent from the version registry)
resolves to the synthesized `UNKNOWN_304` description of quality INSECURE. -/
theorem c3_lookup_absent_witness :
    List.lookup 0x0304 tlsVersions = none ∧
    lookup tlsVersions 0x0304 =
      ⟨"UNKNOWN_" ++ hexStr 0x0304, "UNKNOWN_" ++ hexStr 0x0304, insecure⟩ :=
  ⟨by decide, c3_lookup_absent_synthesizes_unknown tlsVersions 0x0304 (by decide)⟩

/-- C4: for every identifier present in the version registry or the
cipher-suite registry, `lookup` returns exactly the registered Description —
name, slug and quality unchanged. (This also certifies that the registry keys
are pairwise distinct, so "the" registered entry is well defined.) -/
theorem c4_lookup_registered_unchanged :
    (∀ p ∈ tlsVersions, lookup tlsVersions p.1 = p.2) ∧
    (∀ p ∈ cipherSuites, lookup cipherSuites p.1 = p.2) := by
  constructor <;> decide

/-- C4 witness: the registered TLS 1.2 entry (0x0303) is returned unchanged. -/
theorem c4_lookup_registered_witness :
    (0x0303, description.mk "TLS 1.2" "tls_1_2" good) ∈ tlsVersions ∧
    lookup tlsVersions 0x0303 = description.mk "TLS 1.2" "tls_1_2" good :=
  ⟨by decide,
    c4_lookup_registered_unchanged.1
      (0x0303, description.mk "TLS 1.2" "tls_1_2" good) (by decide)⟩

/-- C5: for every Description whose slug matches `TLS_<KEX>_WITH_<CIPHER>`
(the separator `_WITH_` occurs at position `4 + |KEX|` and at no earlier
position, and does not occur in the cipher segment), `explainCipher` splits
the slug on `_WITH_`, strips the leading `TLS_` from the first part, and sets
the name to `<KEX> key exchange, <CIPHER> cipher`, leaving the rest of the
record unchanged. -/
theorem c5_explainCipher_pattern (d : description) (kex cph : String)
    (hslug : d.Slug = "TLS_" ++ kex ++ "_WITH_" ++ cph)
    (hfirst : ∀ i, i < 4 + kex.toList.length →
      "_WITH_".toList.isPrefixOf (d.Slug.toList.drop i) = false)
    (hlast : findSep "_WITH_".toList cph.toList = none) :
    explainCipher d = some { d with Name := kex ++ " key exchange, " ++ cph ++ " cipher" } := by
  have hsep : ("_WITH_".toList : List Char) ≠ [] := by decide
  have hdata : d.Slug.toList =
      ("TLS_".toList ++ kex.toList) ++ ("_WITH_".toList ++ cph.toList) := by
    rw [hslug, strToList_append, strToList_append, strToList_append]
    simp [List.append_assoc]
  have hlen4 : ("TLS_".toList ++ kex.toList).length = 4 + kex.toList.length := by
    simp [List.length_append]
    omega
  have hfind : findSep "_WITH_".toList d.Slug.toList =
      some ("TLS_".toList ++ kex.toList, cph.toList) := by
    rw [hdata]
    apply findSep_append_first hsep
    intro i hi
    have h := hfirst i (by rw [hlen4] at hi; exact hi)
    rw [hdata] at h
    exact h
  have hsplit : splitSep "_WITH_".toList d.Slug.toList =
      ["TLS_".toList ++ kex.toList, cph.toList] := by
    rw [splitSep_cons hsep hfind, splitSep_single hlast]
  unfold explainCipher stringsSplit
  rw [hsplit]
  simp only [List.map]
  rw [if_pos (by rw [strLength_mk, hlen4]; omega)]
  have hdrop : (("TLS_".toList ++ kex.toList).drop 4) = kex.toList := by
    have h4 : ("TLS_".toList : List Char).length = 4 := by decide
    rw [← h4, List.drop_left]
  have h1 : String.mk ((String.mk ("TLS_".toList ++ kex.toList)).toList.drop 4) = kex := by
    show String.mk (("TLS_".toList ++ kex.toList).drop 4) = kex
    rw [hdrop]
    exact strMk_toList kex
  rw [h1, strMk_toList cph]

/-- C5 witness: on slug `TLS_RSA_WITH_AES_128_GCM_SHA256` the derivation
yields the name `RSA key exchange, AES_128_GCM_SHA256 cipher`. -/
theorem c5_explainCipher_witness :
    ("TLS_RSA_WITH_AES_128_GCM_SHA256" : String) =
      "TLS_" ++ "RSA" ++ "_WITH_" ++ "AES_128_GCM_SHA256" ∧
    explainCipher ⟨"", "TLS_RSA_WITH_AES_128_GCM_SHA256", ok⟩ =
      some ⟨"RSA key exchange, AES_128_GCM_SHA256 cipher",
        "TLS_RSA_WITH_AES_128_GCM_SHA256", ok⟩ :=
  ⟨by decide,
    (c5_explainCipher_pattern ⟨"", "TLS_RSA_WITH_AES_128_GCM_SHA256", ok⟩
      "RSA" "AES_128_GCM_SHA256" (by decide) (by decide) (by decide)).trans (by decide)⟩

end Certigo

namespace Certigo

/-- C6: `EncodeTLSToObject` returns the record of exactly the two slug values
of the resolved version and cipher descriptions (the record type has no other
fields, so name and quality are not carried); in particular, for the TLS 1.2
version identifier 0x0303 and the suite identifier 0xc02f it returns
`{version := "tls_1_2", cipher := "TLS_ECDHE_RSA_WITH_AES_128_GCM_SHA256"}`. -/
theorem c6_encodeTLSToObject_slugs :
    (∀ version cipher : Nat,
      (EncodeTLSToObject version cipher).Version = (lookup tlsVersions version).Slug ∧
      (EncodeTLSToObject version cipher).Cipher = (lookup cipherSuites cipher).Slug) ∧
    EncodeTLSToObject 0x0303 0xc02f =
      ⟨"tls_1_2", "TLS_ECDHE_RSA_WITH_AES_128_GCM_SHA256"⟩ := by
  refine ⟨fun version cipher => ⟨rfl, rfl⟩, by decide⟩

/-- C7: for the TLS 1.2 version identifier and the
`TLS_ECDHE_RSA_WITH_AES_128_GCM_SHA256` suite identifier, `EncodeTLSToText`
returns the fixed template: a `** TLS Connection **` header line, a line with
`Version:` followed by the colored version name, and a line with
`Cipher Suite:` followed by the colored derived cipher name; the substrings
`Version:`, `Cipher Suite:`, `TLS 1.2` and the derived cipher name occur in
that line order. -/
theorem c7_encodeTLSToText_example :
    EncodeTLSToText 0x0303 0xc02f =
      some ("** TLS Connection **\nVersion: \x1b[32mTLS 1.2\x1b[0m\nCipher Suite: \x1b[32mECDHE_RSA key exchange, AES_128_GCM_SHA256 cipher\x1b[0m") ∧
    linesOf "** TLS Connection **\nVersion: \x1b[32mTLS 1.2\x1b[0m\nCipher Suite: \x1b[32mECDHE_RSA key exchange, AES_128_GCM_SHA256 cipher\x1b[0m" =
      ["** TLS Connection **",
       "Version: \x1b[32mTLS 1.2\x1b[0m",
       "Cipher Suite: \x1b[32mECDHE_RSA key exchange, AES_128_GCM_SHA256 cipher\x1b[0m"] ∧
    containsStr "Version: \x1b[32mTLS 1.2\x1b[0m" "Version:" = true ∧
    containsStr "Version: \x1b[32mTLS 1.2\x1b[0m" "TLS 1.2" = true ∧
    containsStr "Cipher Suite: \x1b[32mECDHE_RSA key exchange, AES_128_GCM_SHA256 cipher\x1b[0m"
      "Cipher Suite:" = true ∧
    containsStr "Cipher Suite: \x1b[32mECDHE_RSA key exchange, AES_128_GCM_SHA256 cipher\x1b[0m"
      "ECDHE_RSA key exchange, AES_128_GCM_SHA256 cipher" = true := by
  refine ⟨by decide, by decide, by decide, by decide, by decide, by decide⟩

/-- C8: for every description whose quality tier is one of the three defined
tiers, `tlscolor` wraps the name in that tier's color treatment from the
quality-color table; for every quality tier not in the table (any value above
`good = 2`) it returns the plain, uncolored name rather than failing. -/
theorem c8_tlscolor_quality_table : ∀ d : description,
    (d.Quality = insecure → tlscolor d = red.sprint d.Name) ∧
    (d.Quality = ok → tlscolor d = yellow.sprint d.Name) ∧
    (d.Quality = good → tlscolor d = green.sprint d.Name) ∧
    (good < d.Quality → tlscolor d = d.Name) := by
  rintro ⟨n, s, q⟩
  refine ⟨?_, ?_, ?_, ?_⟩ <;> intro h
  · simp only at h; subst h; rfl
  · simp only at h; subst h; rfl
  · simp only at h; subst h; rfl
  · simp only at h
    obtain ⟨k, rfl⟩ : ∃ k, q = k + 3 := ⟨q - 3, by unfold good at h; omega⟩
    rfl

/-- C8 witness: the INSECURE tier gets the red treatment and an out-of-table
tier (7) falls back to the plain name. -/
theorem c8_tlscolor_witness :
    (description.mk "TLS 1.0" "tls_1_0" insecure).Quality = insecure ∧
    tlscolor (description.mk "TLS 1.0" "tls_1_0" insecure) = red.sprint "TLS 1.0" ∧
    good < 7 ∧
    tlscolor (description.mk "plain" "plain" 7) = "plain" :=
  ⟨rfl, (c8_tlscolor_quality_table (description.mk "TLS 1.0" "tls_1_0" insecure)).1 rfl,
    by decide, (c8_tlscolor_quality_table (description.mk "plain" "plain" 7)).2.2.2 (by decide)⟩

/-- C9: when `explainCipher` returns a result, the result differs from its
input at most in the `Name` field: `Slug` and `Quality` are unchanged. -/
theorem c9_explainCipher_frame : ∀ d e : description,
    explainCipher d = some e → e.Slug = d.Slug ∧ e.Quality = d.Quality := by
  intro d e h
  unfold explainCipher at h
  split at h
  · split at h
    · injection h with h'
      rw [← h']
      exact ⟨rfl, rfl⟩
    · cases h
  · cases h

/-- C9 witness: the frame property at the registry entry
`TLS_ECDHE_RSA_WITH_CHACHA20_POLY1305`. -/
theorem c9_explainCipher_frame_witness :
    explainCipher (description.mk "" "TLS_ECDHE_RSA_WITH_CHACHA20_POLY1305" good) =
      some (description.mk "ECDHE_RSA key exchange, CHACHA20_POLY1305 cipher"
        "TLS_ECDHE_RSA_WITH_CHACHA20_POLY1305" good) ∧
    (description.mk "ECDHE_RSA key exchange, CHACHA20_POLY1305 cipher"
        "TLS_ECDHE_RSA_WITH_CHACHA20_POLY1305" good).Slug =
      (description.mk "" "TLS_ECDHE_RSA_WITH_CHACHA20_POLY1305" good).Slug ∧
    (description.mk "ECDHE_RSA key exchange, CHACHA20_POLY1305 cipher"
        "TLS_ECDHE_RSA_WITH_CHACHA20_POLY1305" good).Quality =
      (description.mk "" "TLS_ECDHE_RSA_WITH_CHACHA20_POLY1305" good).Quality :=
  ⟨by decide,
    c9_explainCipher_frame
      (description.mk "" "TLS_ECDHE_RSA_WITH_CHACHA20_POLY1305" good)
      (description.mk "ECDHE_RSA key exchange, CHACHA20_POLY1305 cipher"
        "TLS_ECDHE_RSA_WITH_CHACHA20_POLY1305" good) (by decide)⟩

/-- C10: every entry of the cipher-suite registry has an empty name, a slug
beginning with `TLS_` that is split by `_WITH_` into exactly two parts (one
occurrence of the separator); consequently `explainCipher` on any registry
entry performs no out-of-range access and returns a description with a
non-empty name. -/
theorem c10_cipherSuites_wellFormed : ∀ p ∈ cipherSuites,
    p.2.Name = "" ∧
    hasPre p.2.Slug "TLS_" = true ∧
    (splitSep "_WITH_".toList p.2.Slug.toList).length = 2 ∧
    explainsWithName p.2 = true := by
  decide

/-- C10 witness: well-formedness at the registry entry 0xc012
(`TLS_ECDHE_RSA_WITH_3DES_EDE_CBC_SHA`). -/
theorem c10_cipherSuites_wellFormed_witness :
    (0xc012, description.mk "" "TLS_ECDHE_RSA_WITH_3DES_EDE_CBC_SHA" insecure) ∈ cipherSuites ∧
    ((description.mk "" "TLS_ECDHE_RSA_WITH_3DES_EDE_CBC_SHA" insecure).Name = "" ∧
      hasPre "TLS_ECDHE_RSA_WITH_3DES_EDE_CBC_SHA" "TLS_" = true ∧
      (splitSep "_WITH_".toList "TLS_ECDHE_RSA_WITH_3DES_EDE_CBC_SHA".toList).length = 2 ∧
      explainsWithName (description.mk "" "TLS_ECDHE_RSA_WITH_3DES_EDE_CBC_SHA" insecure) = true) :=
  ⟨by decide,
    c10_cipherSuites_wellFormed
      (0xc012, description.mk "" "TLS_ECDHE_RSA_WITH_3DES_EDE_CBC_SHA" insecure) (by decide)⟩

end Certigo
